import Mathlib

/-!
Shallow embedding of the rao-forward crate (src/lib.rs, src/config.rs).

`f64` values are modelled as real numbers; Rust `Vec` as `List`; the
reference-counted shared handles (`Arc`/`Rc`) as plain values, since the
embedded data is immutable.  Indexing `v[i]` is modelled with `List.getD`
(the Rust code only ever indexes in bounds, which is claim C10).

The external collaborator crates (`rao` for geometry, `zernike` for the
basis functions) are not part of the repository.  Geometry primitives are
modelled from the contract the spec states for them (linear spread,
position-at-altitude projection); the two zernike-crate functions are kept
abstract and passed as parameters (`zjnm` for `zernike::jnm`, `zern` for
`zernike::zernike`), so every theorem below holds for any implementation
of them.
-/

namespace RaoForward

/-- 2D vector, modelling the rao crate's `Vec2D` (f64 components as reals). -/
structure Vec2D where
  x : ℝ
  y : ℝ

/-- Componentwise addition, modelling rao's `Vec2D` addition used in
`x + &y + &c` (src/lib.rs lines 136 and 219). -/
instance : Add Vec2D := ⟨fun a b => ⟨a.x + b.x, a.y + b.y⟩⟩

/-- Euclidean norm of a `Vec2D`, modelling rao's `Vec2D::norm`. -/
noncomputable def Vec2D.norm (v : Vec2D) : ℝ := Real.sqrt (v.x ^ 2 + v.y ^ 2)

/-- 3D point, modelling rao's `Vec3D`. -/
structure Vec3D where
  x : ℝ
  y : ℝ
  z : ℝ

/-- A line of sight, modelling rao's `Line` as built by
`Line::new(x0, thetax, y0, thetay)`. -/
structure Line where
  x0 : ℝ
  thetax : ℝ
  y0 : ℝ
  thetay : ℝ

/-- Transverse position of a line at a given altitude, modelling the rao
crate's `Line::position_at_altitude` per the contract the spec states for
it (the "position at altitude" projection of the geometry library). -/
noncomputable def Line.position_at_altitude (l : Line) (alt : ℝ) : Vec2D :=
  ⟨l.x0 + alt * l.thetax, l.y0 + alt * l.thetay⟩

/-- The line through two 3D points, modelling rao's
`Line::new_from_two_points`. -/
noncomputable def Line.new_from_two_points (a b : Vec3D) : Line :=
  ⟨a.x - a.z * ((b.x - a.x) / (b.z - a.z)), (b.x - a.x) / (b.z - a.z),
   a.y - a.z * ((b.y - a.y) / (b.z - a.z)), (b.y - a.y) / (b.z - a.z)⟩

/-- Two-argument arctangent, modelling `f64::atan2` (src/lib.rs line 95). -/
noncomputable def atan2 (y x : ℝ) : ℝ :=
  if 0 < x then Real.arctan (y / x)
  else if x < 0 then
    (if 0 ≤ y then Real.arctan (y / x) + Real.pi else Real.arctan (y / x) - Real.pi)
  else if 0 < y then Real.pi / 2
  else if y < 0 then -(Real.pi / 2)
  else 0

/-- `const AS2RAD: f64 = PI / 180.0 / 3600.0` (src/lib.rs line 18). -/
noncomputable def AS2RAD : ℝ := Real.pi / 180 / 3600

/-- A measurement probe, modelling the two rao `Measurement` variants the
crate constructs (src/lib.rs lines 158-179 and 240-242).  The `f64::INFINITY`
altitude is modelled as `⊤ : EReal`. -/
inductive Measurement where
  | SlopeTwoEdge (central_line : Line) (edge_length : ℝ) (edge_separation : ℝ)
      (gradient_axis : Vec2D) (npoints : ℕ) (altitude : EReal)
  | Phase (line : Line)

/-- `enum Disturbance` (src/lib.rs lines 24-37), fields in source order. -/
inductive Disturbance where
  | Zernike (jnm : List (ℕ × ℕ × ℕ)) (id : String) (coeffs : List ℝ)
      (radius : ℝ) (altitude : ℝ)

/-- The cached `jnm` field of a disturbance. -/
def Disturbance.jnm : Disturbance → List (ℕ × ℕ × ℕ)
  | .Zernike jnm _ _ _ _ => jnm

/-- The `coeffs` field of a disturbance. -/
def Disturbance.coeffs : Disturbance → List ℝ
  | .Zernike _ _ coeffs _ _ => coeffs

/-- The `id` field of a disturbance, as matched in `Config::to_system`
(src/config.rs line 211). -/
def Disturbance.id : Disturbance → String
  | .Zernike _ id _ _ _ => id

/-- `enum Sensor` (src/lib.rs lines 38-47). -/
inductive Sensor where
  | Shwfs (id : String) (measurements : List Measurement)
  | Imager (id : String) (measurements : List Measurement)

/-- The `measurements` field of either sensor variant. -/
def Sensor.measurements : Sensor → List Measurement
  | .Shwfs _ m => m
  | .Imager _ m => m

/-- The `id` field of either sensor variant, as matched in
`Config::to_system` (src/config.rs lines 199-200). -/
def Sensor.id : Sensor → String
  | .Shwfs id _ => id
  | .Imager id _ => id

/-- `enum Metric` (src/lib.rs lines 55-58). -/
inductive Metric where
  | WavefrontError
  | MeasurementVector

/-- `struct Output` (src/lib.rs lines 48-53), fields in source order. -/
structure Output where
  id : String
  sensors : List Sensor
  disturbances : List Disturbance
  metric : Metric

/-- `struct System` (src/lib.rs lines 20-22). -/
structure System where
  outputs : List Output

/-- `struct SimulationResult` (src/lib.rs lines 328-332). -/
structure SimulationResult where
  id : String
  values : List ℝ

/-- `struct SimulationResults` (src/lib.rs lines 343-346). -/
structure SimulationResults where
  results : List SimulationResult

/-- The radial-order count computed in `Disturbance::new_zernike`
(src/lib.rs lines 66-67):
`((-1.0 + (1.0 + 8.0 * coeffs.len() as f64)).sqrt() / 0.5).ceil() as usize`.
Note the `sqrt` applies to `-1 + (1 + 8L) = 8L` and the division is by
`0.5`, exactly as in the source (the source's own comment on lines 62-65
states the intended formula `((-1 + (1+8l).sqrt())/2).ceil` instead).
The saturating `as usize` cast of a non-negative value is `Nat.ceil`. -/
noncomputable def minimum_radial_orders (L : ℕ) : ℕ :=
  ⌈Real.sqrt (-1 + (1 + 8 * (L : ℝ))) / 0.5⌉₊

/-- `Disturbance::new_zernike` (src/lib.rs lines 61-80).  `zjnm` models the
external `zernike::jnm`, returning the three index vectors; the loop copies
the first `(N+1)·N/2` entries of each into the cached triple list. -/
noncomputable def Disturbance.new_zernike (zjnm : ℕ → List ℕ × List ℕ × List ℕ)
    (id : String) (coeffs : List ℝ) (radius : ℝ) (altitude : ℝ) : Disturbance :=
  Disturbance.Zernike
    ((List.range (((minimum_radial_orders coeffs.length + 1) *
        minimum_radial_orders coeffs.length) / 2)).map
      (fun i =>
        ((zjnm (minimum_radial_orders coeffs.length)).1.getD i 0,
         (zjnm (minimum_radial_orders coeffs.length)).2.1.getD i 0,
         (zjnm (minimum_radial_orders coeffs.length)).2.2.getD i 0)))
    id coeffs radius altitude

/-- `impl Sampleable for Disturbance`, `fn sample` (src/lib.rs lines 84-101).
`zern` models the external `zernike::zernike` basis-function evaluator. -/
noncomputable def Disturbance.sample (zern : ℕ → ℕ → ℕ → ℝ → ℝ → ℝ)
    (d : Disturbance) (p : Line) : ℝ :=
  match d with
  | .Zernike jnm _ coeffs radius altitude =>
    ((List.range coeffs.length).map (fun i =>
      coeffs.getD i 0 *
        zern (jnm.getD i (0, 0, 0)).1 (jnm.getD i (0, 0, 0)).2.1
          (jnm.getD i (0, 0, 0)).2.2
          ((p.position_at_altitude altitude).norm / radius)
          (atan2 (p.position_at_altitude altitude).y
            (p.position_at_altitude altitude).x))).sum

/-- rao's `Vec2D::linspread(&a, &b, n)`, modelled from the contract the spec
states for it: `n` evenly spaced points from `a` to `b` inclusive (a linear
spread). -/
noncomputable def linspread (a b : Vec2D) (n : ℕ) : List Vec2D :=
  (List.range n).map (fun i =>
    ⟨a.x + (b.x - a.x) * i / ((n : ℝ) - 1), a.y + (b.y - a.y) * i / ((n : ℝ) - 1)⟩)

/-- The rotation applied to every centre (src/lib.rs lines 141-149 and
223-231): the standard 2D rotation matrix at angle `t` (radians). -/
noncomputable def rotate2 (t : ℝ) (c : Vec2D) : Vec2D :=
  ⟨c.x * Real.cos t - c.y * Real.sin t, c.x * Real.sin t + c.y * Real.cos t⟩

/-- The subaperture centres built in `Sensor::new_shwfs`
(src/lib.rs lines 121-149): an x spread along the x-axis, a y spread along
the y-axis, the row-major product offset by `centre`, then rotated. -/
noncomputable def shwfsCentres (nsubx : ℕ) (subwidth : ℝ) (centre : ℝ × ℝ)
    (rotation : ℝ) : List Vec2D :=
  ((linspread ⟨0, -subwidth * nsubx / 2⟩ ⟨0, subwidth * nsubx / 2⟩ nsubx).flatMap
    (fun y => (linspread ⟨-subwidth * nsubx / 2, 0⟩ ⟨subwidth * nsubx / 2, 0⟩ nsubx).map
      (fun x => x + y + ⟨centre.1, centre.2⟩))).map
    (rotate2 (rotation * Real.pi / 180))

/-- The sample centres built in `Sensor::new_imager`
(src/lib.rs lines 204-231).  Note: in the source the second (`y`) spread is
taken between `(-pitch·n/2, 0)` and `(pitch·n/2, 0)` — along the
x-direction, like the first spread — and that is mirrored here verbatim. -/
noncomputable def imagerCentres (nsample : ℕ) (pitch : ℝ) (centre : ℝ × ℝ)
    (rotation : ℝ) : List Vec2D :=
  ((linspread ⟨-pitch * nsample / 2, 0⟩ ⟨pitch * nsample / 2, 0⟩ nsample).flatMap
    (fun y => (linspread ⟨-pitch * nsample / 2, 0⟩ ⟨pitch * nsample / 2, 0⟩ nsample).map
      (fun x => x + y + ⟨centre.1, centre.2⟩))).map
    (rotate2 (rotation * Real.pi / 180))

/-- The 3D guide-star point built in both sensor constructors
(src/lib.rs lines 150-155 and 232-237). -/
noncomputable def gsPoint (direction : ℝ × ℝ) (gsalt : ℝ) : Vec3D :=
  ⟨((Line.mk 0 (direction.1 * AS2RAD) 0 (direction.2 * AS2RAD)).position_at_altitude gsalt).x,
   ((Line.mk 0 (direction.1 * AS2RAD) 0 (direction.2 * AS2RAD)).position_at_altitude gsalt).y,
   gsalt⟩

/-- `Sensor::new_shwfs` (src/lib.rs lines 105-186): all x-slope probes over
the centres, then all y-slope probes over the same centres. -/
noncomputable def Sensor.new_shwfs (id : String) (nsubx : ℕ) (subwidth : ℝ)
    (centre : ℝ × ℝ) (rotation : ℝ) (direction : ℝ × ℝ) (gsalt : ℝ) : Sensor :=
  Sensor.Shwfs id
    (((shwfsCentres nsubx subwidth centre rotation).map (fun c =>
        Measurement.SlopeTwoEdge
          (Line.new_from_two_points ⟨c.x, c.y, 0⟩ (gsPoint direction gsalt))
          subwidth subwidth
          ⟨Real.cos (rotation * Real.pi / 180), Real.sin (rotation * Real.pi / 180)⟩
          2 ⊤)) ++
      ((shwfsCentres nsubx subwidth centre rotation).map (fun c =>
        Measurement.SlopeTwoEdge
          (Line.new_from_two_points ⟨c.x, c.y, 0⟩ (gsPoint direction gsalt))
          subwidth subwidth
          ⟨Real.cos (rotation * Real.pi / 180 + Real.pi / 2),
           Real.sin (rotation * Real.pi / 180 + Real.pi / 2)⟩
          2 ⊤)))

/-- `Sensor::new_imager` (src/lib.rs lines 188-248): one phase probe per
centre. -/
noncomputable def Sensor.new_imager (id : String) (nsample : ℕ) (pitch : ℝ)
    (centre : ℝ × ℝ) (rotation : ℝ) (direction : ℝ × ℝ) (gsalt : ℝ) : Sensor :=
  Sensor.Imager id
    ((imagerCentres nsample pitch centre rotation).map (fun c =>
      Measurement.Phase
        (Line.new_from_two_points ⟨c.x, c.y, 0⟩ (gsPoint direction gsalt))))

/-- The grid of centre points as the specification describes it (§4.2 steps
1-3): one list of `n` evenly spaced axis values spanning
`[-spacing·n/2, spacing·n/2]` per axis, the row-major Cartesian product
(outer loop supplying the y-coordinate, inner the x-coordinate), each point
offset by `centre` and then rotated about the origin. -/
noncomputable def specGridCentres (n : ℕ) (spacing : ℝ) (centre : ℝ × ℝ)
    (rotation : ℝ) : List Vec2D :=
  ((List.range n).map (fun i => -spacing * n / 2 + spacing * n * i / ((n : ℝ) - 1))).flatMap
    (fun yv =>
      ((List.range n).map (fun i => -spacing * n / 2 + spacing * n * i / ((n : ℝ) - 1))).map
        (fun xv => rotate2 (rotation * Real.pi / 180) ⟨xv + centre.1, yv + centre.2⟩))

/-- `Metric::evaluate` (src/lib.rs lines 251-313).  `measSample` models the
external rao `Measurement::sample` applied to a `Sampleable` disturbance;
the `for` loops with mutable accumulators become left folds, and the rayon
parallel iterators (which preserve input order) become sequential maps. -/
noncomputable def Metric.evaluate (measSample : Measurement → Disturbance → ℝ)
    (m : Metric) (sensor : Sensor) (disturbances : List Disturbance) : List ℝ :=
  match m with
  | .WavefrontError =>
    match sensor with
    | .Shwfs _ measurements =>
      [Real.sqrt
        ((measurements.foldl (fun rms measurement =>
            rms + (disturbances.foldl
              (fun total d => total + measSample measurement d) 0) ^ 2) 0) /
          measurements.length)]
    | .Imager _ measurements =>
      [Real.sqrt
        ((measurements.foldl (fun rms measurement =>
            rms + (disturbances.foldl
              (fun total d => total + measSample measurement d) 0) ^ 2) 0) /
          measurements.length -
        ((measurements.foldl (fun mean measurement =>
            mean + disturbances.foldl
              (fun total d => total + measSample measurement d) 0) 0) /
          measurements.length) ^ 2)]
  | .MeasurementVector =>
    match sensor with
    | .Shwfs _ measurements =>
      measurements.map (fun meas => (disturbances.map (fun dist => measSample meas dist)).sum)
    | .Imager _ measurements =>
      measurements.map (fun meas => (disturbances.map (fun dist => measSample meas dist)).sum)

/-- `SimulationResult::new_from_output` (src/lib.rs lines 334-341). -/
def SimulationResult.new_from_output (output : Output) : SimulationResult :=
  ⟨output.id, []⟩

/-- `Output::evaluate` (src/lib.rs lines 315-326): flat-map the metric over
the bound sensors (rayon's order-preserving `flat_map`) and store the values
into the result built from the output. -/
noncomputable def Output.evaluate (measSample : Measurement → Disturbance → ℝ)
    (o : Output) : SimulationResult :=
  { SimulationResult.new_from_output o with
    values := o.sensors.flatMap (fun sensor =>
      Metric.evaluate measSample o.metric sensor o.disturbances) }

/-- `System::evaluate` (src/lib.rs lines 364-374). -/
noncomputable def System.evaluate (measSample : Measurement → Disturbance → ℝ)
    (s : System) : SimulationResults :=
  ⟨s.outputs.map (Output.evaluate measSample)⟩

end RaoForward

namespace RaoForward.config

/-- `config::Disturbance` (src/config.rs lines 41-53). -/
inductive Disturbance where
  | Zernike (id : String) (coeffs : List ℝ) (radius : ℝ) (altitude : ℝ)

/-- `config::Sensor` (src/config.rs lines 55-79). -/
inductive Sensor where
  | SHWFS (id : String) (nsubx : ℕ) (subwidth : ℝ) (centre : ℝ × ℝ)
      (rotation : ℝ) (direction : ℝ × ℝ) (gsalt : ℝ)
  | Imager (id : String) (nsamples : ℕ) (pitch : ℝ) (centre : ℝ × ℝ)
      (rotation : ℝ) (direction : ℝ × ℝ) (gsalt : ℝ)

/-- `config::Metric` (src/config.rs lines 91-94); the variant name's typo is
the source's. -/
inductive Metric where
  | WafefrontError

/-- `config::Output` (src/config.rs lines 81-89), fields in source order. -/
structure Output where
  disturbances : List String
  sensors : List String
  metric : Metric

/-- The disturbance construction performed in `Config::to_system`
(src/config.rs lines 144-159). -/
noncomputable def Disturbance.build (zjnm : ℕ → List ℕ × List ℕ × List ℕ) :
    Disturbance → RaoForward.Disturbance
  | .Zernike id coeffs radius altitude =>
    RaoForward.Disturbance.new_zernike zjnm id coeffs radius altitude

/-- The sensor construction performed in `Config::to_system`
(src/config.rs lines 160-185). -/
noncomputable def Sensor.build : Sensor → RaoForward.Sensor
  | .SHWFS id nsubx subwidth centre rotation direction gsalt =>
    RaoForward.Sensor.new_shwfs id nsubx subwidth centre rotation direction gsalt
  | .Imager id nsamples pitch centre rotation direction gsalt =>
    RaoForward.Sensor.new_imager id nsamples pitch centre rotation direction gsalt

end RaoForward.config

namespace RaoForward

/-- `struct Config` (src/config.rs lines 28-33). -/
structure Config where
  disturbances : List config.Disturbance
  sensors : List config.Sensor
  outputs : List config.Output

/-- The sensor-subset resolution in `Config::to_system`
(src/config.rs lines 195-206): keep each globally declared sensor whose id
the output's id list contains. -/
def resolveSensors (globals : List Sensor) (listed : List String) : List Sensor :=
  globals.filterMap (fun p => if listed.contains (Sensor.id p) then some p else none)

/-- The disturbance-subset resolution in `Config::to_system`
(src/config.rs lines 207-217). -/
def resolveDisturbances (globals : List Disturbance) (listed : List String) :
    List Disturbance :=
  globals.filterMap (fun p => if listed.contains (Disturbance.id p) then some p else none)

/-- `Config::to_system` (src/config.rs lines 143-227).  The source
constructs each `crate::Output` without an `id` field; the id is modelled as
the empty string. -/
noncomputable def Config.to_system (zjnm : ℕ → List ℕ × List ℕ × List ℕ)
    (c : Config) : System :=
  let sys_disturbances := c.disturbances.map (config.Disturbance.build zjnm)
  let sys_sensors := c.sensors.map config.Sensor.build
  System.mk (c.outputs.map (fun o =>
    Output.mk ""
      (resolveSensors sys_sensors o.sensors)
      (resolveDisturbances sys_disturbances o.disturbances)
      (match o.metric with
       | .WafefrontError => Metric.WavefrontError)))

/-- Default output used with `List.getD` in the statements below. -/
def outputDefault : Output := ⟨"", [], [], Metric.WavefrontError⟩

/-- Default config output used with `List.getD` in the statements below. -/
def coutputDefault : config.Output := ⟨[], [], config.Metric.WafefrontError⟩

/-- Default simulation result used with `List.getD` in the statements
below. -/
def resultDefault : SimulationResult := ⟨"", []⟩

/-- Default measurement used with `List.getD` in the statements below. -/
noncomputable def measurementDefault : Measurement := Measurement.Phase ⟨0, 0, 0, 0⟩

/-- A concrete zernike index table, used to instantiate theorems at concrete
inputs. -/
def zjnmW : ℕ → List ℕ × List ℕ × List ℕ := fun _ => ([], [], [])

/-- A concrete probe-sampling function, used to instantiate theorems at
concrete inputs. -/
noncomputable def measSampleW : Measurement → Disturbance → ℝ := fun _ _ => 0

/-- A concrete one-probe sensor, used to instantiate theorems at concrete
inputs. -/
noncomputable def sensorW : Sensor := Sensor.Imager "img" [measurementDefault]

/-- A concrete system whose single output binds no sensors, used to
instantiate theorems at concrete inputs. -/
def sysW : System := ⟨[⟨"out0", [], [], Metric.WavefrontError⟩]⟩

/-- A concrete configuration whose output lists one dangling sensor id
("missing"), used to instantiate theorems at concrete inputs. -/
noncomputable def cfgW : Config :=
  ⟨[config.Disturbance.Zernike "dm" [1, 2, 3] 4 0],
   [config.Sensor.SHWFS "lgs1" 4 0.2 (0, 0) 0 (17.5, 0) 90000],
   [⟨["dm"], ["lgs1", "missing"], config.Metric.WafefrontError⟩]⟩

end RaoForward

namespace RaoForward

theorem foldl_add_eq {α : Type*} (f : α → ℝ) :
    ∀ (l : List α) (a : ℝ), l.foldl (fun acc x => acc + f x) a = a + (l.map f).sum := by
  intro l
  induction l with
  | nil => intro a; simp
  | cons hd tl ih => intro a; simp [ih]; ring

theorem filterMap_if_eq_filter {α : Type*} (q : α → Bool) (l : List α) :
    l.filterMap (fun p => if q p then some p else none) = l.filter q := by
  induction l with
  | nil => rfl
  | cons hd tl ih => cases hq : q hd <;> simp [List.filterMap_cons, List.filter_cons, hq, ih]

theorem contains_filter_of_mem (listed : List String) (q : String → Bool) (x : String)
    (hq : q x = true) : (listed.filter q).contains x = listed.contains x := by
  rw [Bool.eq_iff_iff]
  simp only [List.elem_iff, List.mem_filter]
  tauto

end RaoForward

namespace RaoForward

/-- C1.  The claim fails on the code: for a coefficient list of length 3 the
minimal radial order N with N(N+1)/2 ≥ 3 is 2 and the claimed triple-list
length is 3, but `new_zernike` computes
`ceil(sqrt(8·3)/0.5) = ceil(2·sqrt(24)) = 10` — contradicting the formula in
the source's own comment — and caches `10·11/2 = 55` triples, whatever the
zernike crate returns. -/
theorem zernike_mode_table_oversized :
    minimum_radial_orders 3 = 10 ∧
    (∀ zjnm : ℕ → List ℕ × List ℕ × List ℕ,
      ((Disturbance.new_zernike zjnm "dm" [1, 2, 3] 4 0).jnm).length = 55) := by
  have h24 : minimum_radial_orders 3 = ⌈Real.sqrt 24 / 0.5⌉₊ := by
    unfold minimum_radial_orders
    norm_num
  have hs : Real.sqrt 24 ^ 2 = 24 := Real.sq_sqrt (by norm_num)
  have hn : (0 : ℝ) ≤ Real.sqrt 24 := Real.sqrt_nonneg _
  have hd : Real.sqrt 24 / 0.5 = 2 * Real.sqrt 24 := by
    rw [div_eq_mul_inv]
    norm_num
    ring
  have h10 : minimum_radial_orders 3 = 10 := by
    rw [h24, hd, Nat.ceil_eq_iff (by norm_num)]
    constructor
    · push_cast
      nlinarith [hs, hn]
    · push_cast
      nlinarith [hs, hn]
  refine ⟨h10, fun zjnm => ?_⟩
  simp only [Disturbance.new_zernike, Disturbance.jnm, List.length_map,
    List.length_range, List.length_cons, List.length_nil]
  rw [h10]

/-- C10.  The cached triple list always has at least as many entries as the
coefficient list (the oversized radial-order count makes the table large
enough), so the positional accesses `jnm[i]`, `coeffs[i]` for `i` below the
coefficient count in `Disturbance::sample` are in bounds. -/
theorem jnm_table_covers_coeffs (zjnm : ℕ → List ℕ × List ℕ × List ℕ)
    (id : String) (coeffs : List ℝ) (radius altitude : ℝ) :
    coeffs.length ≤ ((Disturbance.new_zernike zjnm id coeffs radius altitude).jnm).length := by
  simp only [Disturbance.new_zernike, Disturbance.jnm, List.length_map, List.length_range]
  have h1 : Real.sqrt (8 * (coeffs.length : ℝ)) / 0.5 ≤
      ((minimum_radial_orders coeffs.length : ℕ) : ℝ) := by
    have harg : (8 * (coeffs.length : ℝ)) = -1 + (1 + 8 * (coeffs.length : ℝ)) := by ring
    rw [harg]
    unfold minimum_radial_orders
    exact Nat.le_ceil _
  have hs : Real.sqrt (8 * (coeffs.length : ℝ)) ^ 2 = 8 * (coeffs.length : ℝ) :=
    Real.sq_sqrt (by positivity)
  have hn : (0 : ℝ) ≤ Real.sqrt (8 * (coeffs.length : ℝ)) := Real.sqrt_nonneg _
  have h1' : 2 * Real.sqrt (8 * (coeffs.length : ℝ)) ≤
      ((minimum_radial_orders coeffs.length : ℕ) : ℝ) := by
    have hhalf : (0.5 : ℝ)⁻¹ = 2 := by norm_num
    rw [div_eq_mul_inv, hhalf] at h1
    linarith
  have h2 : (32 * (coeffs.length : ℝ)) ≤ ((minimum_radial_orders coeffs.length : ℕ) : ℝ) ^ 2 := by
    nlinarith [h1', hs, hn]
  have h3 : 32 * coeffs.length ≤ (minimum_radial_orders coeffs.length) ^ 2 := by
    exact_mod_cast h2
  have h4 : 32 * coeffs.length ≤ (minimum_radial_orders coeffs.length + 1) *
      minimum_radial_orders coeffs.length := by
    have hexp : (minimum_radial_orders coeffs.length + 1) * minimum_radial_orders coeffs.length
        = (minimum_radial_orders coeffs.length) ^ 2 + minimum_radial_orders coeffs.length := by
      ring
    omega
  calc coeffs.length ≤ (32 * coeffs.length) / 2 := by omega
    _ ≤ ((minimum_radial_orders coeffs.length + 1) * minimum_radial_orders coeffs.length) / 2 :=
        Nat.div_le_div_right h4

/-- C6.  `Disturbance.sample` is linear in the coefficient vector: scaling
every coefficient by `k` scales the sampled value by `k`, for any fixed line
of sight (and for any implementation of the external zernike crate). -/
theorem sample_linear_in_coeffs (zjnm : ℕ → List ℕ × List ℕ × List ℕ)
    (zern : ℕ → ℕ → ℕ → ℝ → ℝ → ℝ) (k : ℝ) (id : String) (coeffs : List ℝ)
    (radius altitude : ℝ) (p : Line) :
    Disturbance.sample zern
        (Disturbance.new_zernike zjnm id (coeffs.map (fun c => k * c)) radius altitude) p
      = k * Disturbance.sample zern
        (Disturbance.new_zernike zjnm id coeffs radius altitude) p := by
  simp only [Disturbance.new_zernike, Disturbance.sample, List.length_map]
  rw [← List.sum_map_mul_left]
  apply congrArg
  apply List.map_congr_left
  intro i hi
  rw [List.mem_range] at hi
  rw [List.getD_eq_getElem _ _ (by simpa using hi), List.getD_eq_getElem _ _ hi,
    List.getElem_map]
  ring

end RaoForward

namespace RaoForward

theorem Vec2D.add_def (a b : Vec2D) : a + b = ⟨a.x + b.x, a.y + b.y⟩ := rfl

/-- C2.  The Shack-Hartmann constructor builds its centre grid exactly as
the spec describes (independent axis spreads, row-major product, offset,
then rotation), but the Imager constructor does not: its second axis spread
runs along the x-direction, so at `nsample = 2, pitch = 1, centre = (0,0),
rotation = 0` the code's centres all have `y = 0` instead of forming the
described 2×2 grid. -/
theorem sensor_grid_construction_check :
    (∀ (n : ℕ) (s : ℝ) (c : ℝ × ℝ) (r : ℝ), shwfsCentres n s c r = specGridCentres n s c r)
    ∧ (imagerCentres 2 1 (0, 0) 0).map Vec2D.y = [0, 0, 0, 0]
    ∧ (specGridCentres 2 1 (0, 0) 0).map Vec2D.y = [-1, -1, 1, 1]
    ∧ imagerCentres 2 1 (0, 0) 0 ≠ specGridCentres 2 1 (0, 0) 0 := by
  have hshwfs : ∀ (n : ℕ) (s : ℝ) (c : ℝ × ℝ) (r : ℝ),
      shwfsCentres n s c r = specGridCentres n s c r := by
    intro n s c r
    simp only [shwfsCentres, specGridCentres, linspread, List.map_flatMap,
      List.flatMap_map, List.map_map]
    congr 1
    funext j
    congr 1
    funext i
    simp only [Function.comp_apply, Vec2D.add_def, rotate2, Vec2D.mk.injEq]
    constructor <;> ring
  have hrange : List.range 2 = [0, 1] := rfl
  have himg : (imagerCentres 2 1 (0, 0) 0).map Vec2D.y = [0, 0, 0, 0] := by
    simp [imagerCentres, linspread, rotate2, Vec2D.add_def, hrange]
  have hspec : (specGridCentres 2 1 (0, 0) 0).map Vec2D.y = [-1, -1, 1, 1] := by
    simp [specGridCentres, rotate2, hrange]
    norm_num
  refine ⟨hshwfs, himg, hspec, fun h => ?_⟩
  have := congrArg (fun l => l.map Vec2D.y) h
  simp only [himg, hspec] at this
  simp at this

/-- C3 counterexample.  A Shack-Hartmann sensor built with grid dimension 0
has an empty probe list, yet the WavefrontError metric on it returns a
one-element list (the degenerate `sqrt(0/0)` value), not the empty list the
claim requires of every metric. -/
theorem wavefront_error_empty_sensor_result_single :
    (Sensor.new_shwfs "s" 0 1 (0, 0) 0 (0, 0) 0).measurements = [] ∧
    Metric.evaluate (fun _ _ => 0) Metric.WavefrontError
      (Sensor.new_shwfs "s" 0 1 (0, 0) 0 (0, 0) 0) [] ≠ [] := by
  have hsen : Sensor.new_shwfs "s" 0 1 (0, 0) 0 (0, 0) 0 = Sensor.Shwfs "s" [] := by
    simp [Sensor.new_shwfs, shwfsCentres, linspread]
  rw [hsen]
  exact ⟨rfl, by simp [Metric.evaluate]⟩

/-- C3 amended.  A sensor built with grid dimension 0 has an empty probe
list and the MeasurementVector metric on it yields an empty result list,
with no error anywhere; the WavefrontError metric, however, yields a
one-element result list (a degenerate 0/0 quantity), for either sensor
variant. -/
theorem degenerate_grid_behaviour (id : String) (subwidth pitch : ℝ) (centre : ℝ × ℝ)
    (rotation : ℝ) (direction : ℝ × ℝ) (gsalt : ℝ)
    (measSample : Measurement → Disturbance → ℝ) (ds : List Disturbance) :
    (Sensor.new_shwfs id 0 subwidth centre rotation direction gsalt).measurements = [] ∧
    (Sensor.new_imager id 0 pitch centre rotation direction gsalt).measurements = [] ∧
    Metric.evaluate measSample Metric.MeasurementVector
      (Sensor.new_shwfs id 0 subwidth centre rotation direction gsalt) ds = [] ∧
    Metric.evaluate measSample Metric.MeasurementVector
      (Sensor.new_imager id 0 pitch centre rotation direction gsalt) ds = [] ∧
    (Metric.evaluate measSample Metric.WavefrontError
      (Sensor.new_shwfs id 0 subwidth centre rotation direction gsalt) ds).length = 1 ∧
    (Metric.evaluate measSample Metric.WavefrontError
      (Sensor.new_imager id 0 pitch centre rotation direction gsalt) ds).length = 1 := by
  have hs : Sensor.new_shwfs id 0 subwidth centre rotation direction gsalt
      = Sensor.Shwfs id [] := by
    simp [Sensor.new_shwfs, shwfsCentres, linspread]
  have hi : Sensor.new_imager id 0 pitch centre rotation direction gsalt
      = Sensor.Imager id [] := by
    simp [Sensor.new_imager, imagerCentres, linspread]
  rw [hs, hi]
  refine ⟨rfl, rfl, ?_, ?_, ?_, ?_⟩ <;> simp [Metric.evaluate, Sensor.measurements]

end RaoForward

namespace RaoForward

/-- C4.  For every sensor and disturbance list, WavefrontError first sums
each probe's sampled value over all disturbances into one total per probe;
a Shack-Hartmann sensor then yields the single value
`sqrt(mean of squares)` of the per-probe totals, an Imager sensor the single
value `sqrt(mean of squares - square of mean)`. -/
theorem wavefront_error_formula (measSample : Measurement → Disturbance → ℝ)
    (id : String) (meas : List Measurement) (ds : List Disturbance) :
    Metric.evaluate measSample Metric.WavefrontError (Sensor.Shwfs id meas) ds
      = [Real.sqrt
          ((meas.map (fun m => ((ds.map (fun d => measSample m d)).sum) ^ 2)).sum /
            meas.length)]
    ∧ Metric.evaluate measSample Metric.WavefrontError (Sensor.Imager id meas) ds
      = [Real.sqrt
          ((meas.map (fun m => ((ds.map (fun d => measSample m d)).sum) ^ 2)).sum /
            meas.length -
          ((meas.map (fun m => (ds.map (fun d => measSample m d)).sum)).sum /
            meas.length) ^ 2)] := by
  constructor <;> simp only [Metric.evaluate, foldl_add_eq, zero_add]

/-- C5.  MeasurementVector returns one entry per probe, in probe declaration
order, each entry being the sum over all disturbances of that probe's
sampled value, for both sensor kinds, with no cross-probe reduction. -/
theorem measurement_vector_per_probe (measSample : Measurement → Disturbance → ℝ)
    (sensor : Sensor) (ds : List Disturbance) :
    (Metric.evaluate measSample Metric.MeasurementVector sensor ds).length
        = sensor.measurements.length
    ∧ ∀ i : ℕ, i < sensor.measurements.length →
        (Metric.evaluate measSample Metric.MeasurementVector sensor ds).getD i 0
          = (ds.map (fun d =>
              measSample (sensor.measurements.getD i measurementDefault) d)).sum := by
  cases sensor with
  | Shwfs id meas =>
    refine ⟨by simp [Metric.evaluate, Sensor.measurements], fun i hi => ?_⟩
    simp only [Sensor.measurements] at hi ⊢
    simp only [Metric.evaluate]
    rw [List.getD_eq_getElem _ _ (by simpa using hi), List.getElem_map,
      List.getD_eq_getElem _ _ hi]
  | Imager id meas =>
    refine ⟨by simp [Metric.evaluate, Sensor.measurements], fun i hi => ?_⟩
    simp only [Sensor.measurements] at hi ⊢
    simp only [Metric.evaluate]
    rw [List.getD_eq_getElem _ _ (by simpa using hi), List.getElem_map,
      List.getD_eq_getElem _ _ hi]

theorem measurement_vector_per_probe_witness :
    0 < sensorW.measurements.length ∧
    (Metric.evaluate measSampleW Metric.MeasurementVector sensorW
        ([] : List Disturbance)).getD 0 0
      = (([] : List Disturbance).map (fun d =>
          measSampleW (sensorW.measurements.getD 0 measurementDefault) d)).sum :=
  ⟨by simp [sensorW, Sensor.measurements],
   (measurement_vector_per_probe measSampleW sensorW []).2 0
     (by simp [sensorW, Sensor.measurements])⟩

/-- C7.  `System.evaluate` returns one result per output, in declaration
order, each carrying the output's id; an output bound to zero sensors still
appears, with an empty value list. -/
theorem system_evaluate_per_output (measSample : Measurement → Disturbance → ℝ)
    (sys : System) :
    ((sys.evaluate measSample).results.length = sys.outputs.length)
    ∧ (∀ i : ℕ, i < sys.outputs.length →
        ((sys.evaluate measSample).results.getD i resultDefault).id
          = (sys.outputs.getD i outputDefault).id)
    ∧ (∀ i : ℕ, i < sys.outputs.length →
        (sys.outputs.getD i outputDefault).sensors = [] →
        ((sys.evaluate measSample).results.getD i resultDefault).values = []) := by
  refine ⟨by simp [System.evaluate], fun i hi => ?_, fun i hi hempty => ?_⟩
  · simp only [System.evaluate]
    rw [List.getD_eq_getElem _ _ (by simpa [System.evaluate] using hi), List.getElem_map,
      List.getD_eq_getElem _ _ hi]
    simp [Output.evaluate, SimulationResult.new_from_output]
  · rw [List.getD_eq_getElem _ _ hi] at hempty
    simp only [System.evaluate]
    rw [List.getD_eq_getElem _ _ (by simpa [System.evaluate] using hi), List.getElem_map]
    simp [Output.evaluate, SimulationResult.new_from_output, hempty]

theorem system_evaluate_per_output_witness :
    0 < sysW.outputs.length ∧ (sysW.outputs.getD 0 outputDefault).sensors = [] ∧
    ((sysW.evaluate measSampleW).results.getD 0 resultDefault).values = [] :=
  ⟨by simp [sysW], rfl,
   (system_evaluate_per_output measSampleW sysW).2.2 0 (by simp [sysW]) rfl⟩

end RaoForward

namespace RaoForward

theorem to_system_outputs_eq (zjnm : ℕ → List ℕ × List ℕ × List ℕ) (c : Config) :
    (c.to_system zjnm).outputs = c.outputs.map (fun o =>
      Output.mk ""
        (resolveSensors (c.sensors.map config.Sensor.build) o.sensors)
        (resolveDisturbances (c.disturbances.map (config.Disturbance.build zjnm))
          o.disturbances)
        (match o.metric with
         | .WafefrontError => Metric.WavefrontError)) := rfl

theorem resolve_drop_generic {α : Type*} (idOf : α → String) (g : List α)
    (listed : List String) :
    g.filterMap (fun p =>
        if (listed.filter (fun sid => (g.map idOf).contains sid)).contains (idOf p)
        then some p else none)
      = g.filterMap (fun p => if listed.contains (idOf p) then some p else none) := by
  rw [filterMap_if_eq_filter, filterMap_if_eq_filter]
  apply List.filter_congr
  intro p hp
  exact contains_filter_of_mem listed _ (idOf p)
    (by simpa using List.elem_iff.mpr (List.mem_map_of_mem idOf hp))

/-- C8.  Resolving a configuration always succeeds (`to_system` is total),
and an id in an output's sensor or disturbance list that matches no declared
sensor/disturbance is simply dropped: filtering the listed ids down to those
that some declared entry carries leaves the resolved subset unchanged. -/
theorem to_system_dangling_ids_dropped (zjnm : ℕ → List ℕ × List ℕ × List ℕ)
    (c : Config) (i : ℕ) (h : i < c.outputs.length) :
    ((c.to_system zjnm).outputs.getD i outputDefault).sensors
      = resolveSensors (c.sensors.map config.Sensor.build)
          (((c.outputs.getD i coutputDefault).sensors).filter
            (fun sid => ((c.sensors.map config.Sensor.build).map Sensor.id).contains sid))
    ∧ ((c.to_system zjnm).outputs.getD i outputDefault).disturbances
      = resolveDisturbances (c.disturbances.map (config.Disturbance.build zjnm))
          (((c.outputs.getD i coutputDefault).disturbances).filter
            (fun did => ((c.disturbances.map (config.Disturbance.build zjnm)).map
              Disturbance.id).contains did)) := by
  rw [to_system_outputs_eq]
  rw [List.getD_eq_getElem _ _ (by simpa using h), List.getElem_map,
    List.getD_eq_getElem _ _ h]
  constructor
  · exact (resolve_drop_generic Sensor.id _ _).symm
  · exact (resolve_drop_generic Disturbance.id _ _).symm

theorem to_system_dangling_ids_dropped_witness :
    0 < cfgW.outputs.length ∧
    ((cfgW.to_system zjnmW).outputs.getD 0 outputDefault).sensors
      = resolveSensors (cfgW.sensors.map config.Sensor.build)
          (((cfgW.outputs.getD 0 coutputDefault).sensors).filter
            (fun sid => ((cfgW.sensors.map config.Sensor.build).map Sensor.id).contains sid)) :=
  ⟨by simp [cfgW],
   (to_system_dangling_ids_dropped zjnmW cfgW 0 (by simp [cfgW])).1⟩

/-- C9.  An output's resolved subsets are the global declaration lists
filtered by listed-id membership: they preserve global declaration order
(sublists of the global lists), and every declared entry whose id appears in
the output's id list is bound — including all entries sharing a duplicated
id. -/
theorem to_system_resolution_order (zjnm : ℕ → List ℕ × List ℕ × List ℕ)
    (c : Config) (i : ℕ) (h : i < c.outputs.length) :
    ((c.to_system zjnm).outputs.getD i outputDefault).sensors
      = (c.sensors.map config.Sensor.build).filter
          (fun g => ((c.outputs.getD i coutputDefault).sensors).contains (Sensor.id g))
    ∧ ((c.to_system zjnm).outputs.getD i outputDefault).disturbances
      = (c.disturbances.map (config.Disturbance.build zjnm)).filter
          (fun g => ((c.outputs.getD i coutputDefault).disturbances).contains
            (Disturbance.id g))
    ∧ List.Sublist ((c.to_system zjnm).outputs.getD i outputDefault).sensors
        (c.sensors.map config.Sensor.build)
    ∧ List.Sublist ((c.to_system zjnm).outputs.getD i outputDefault).disturbances
        (c.disturbances.map (config.Disturbance.build zjnm))
    ∧ (∀ g ∈ c.sensors.map config.Sensor.build,
        ((c.outputs.getD i coutputDefault).sensors).contains (Sensor.id g) = true →
          g ∈ ((c.to_system zjnm).outputs.getD i outputDefault).sensors)
    ∧ (∀ g ∈ c.disturbances.map (config.Disturbance.build zjnm),
        ((c.outputs.getD i coutputDefault).disturbances).contains (Disturbance.id g) = true →
          g ∈ ((c.to_system zjnm).outputs.getD i outputDefault).disturbances) := by
  have hsens : ((c.to_system zjnm).outputs.getD i outputDefault).sensors
      = (c.sensors.map config.Sensor.build).filter
          (fun g => ((c.outputs.getD i coutputDefault).sensors).contains (Sensor.id g)) := by
    rw [to_system_outputs_eq]
    rw [List.getD_eq_getElem _ _ (by simpa using h), List.getElem_map,
      List.getD_eq_getElem _ _ h]
    exact filterMap_if_eq_filter _ _
  have hdist : ((c.to_system zjnm).outputs.getD i outputDefault).disturbances
      = (c.disturbances.map (config.Disturbance.build zjnm)).filter
          (fun g => ((c.outputs.getD i coutputDefault).disturbances).contains
            (Disturbance.id g)) := by
    rw [to_system_outputs_eq]
    rw [List.getD_eq_getElem _ _ (by simpa using h), List.getElem_map,
      List.getD_eq_getElem _ _ h]
    exact filterMap_if_eq_filter _ _
  refine ⟨hsens, hdist, ?_, ?_, ?_, ?_⟩
  · rw [hsens]; exact List.filter_sublist _
  · rw [hdist]; exact List.filter_sublist _
  · intro g hg hc
    rw [hsens, List.mem_filter]
    exact ⟨hg, hc⟩
  · intro g hg hc
    rw [hdist, List.mem_filter]
    exact ⟨hg, hc⟩

theorem to_system_resolution_order_witness :
    0 < cfgW.outputs.length ∧
    ((cfgW.to_system zjnmW).outputs.getD 0 outputDefault).sensors
      = (cfgW.sensors.map config.Sensor.build).filter
          (fun g => ((cfgW.outputs.getD 0 coutputDefault).sensors).contains (Sensor.id g)) :=
  ⟨by simp [cfgW],
   (to_system_resolution_order zjnmW cfgW 0 (by simp [cfgW])).1⟩

end RaoForward
